import Mathlib

/-!
Verification of the postMessage MCP transport repository's version-negotiation
logic (`src/protocol/logic.ts`) and of the demo pages' boot/race/update
behaviour (`src/demo/inverted/patient-dashboard.ts`, the AI-copilot page).

The TypeScript is shallowly embedded: strings become `List Char` processing,
JavaScript `parseInt(part, 10) || 0` is modelled with its real
prefix-parsing semantics, the `for` loops of `compareVersions` become
fuel-indexed recursion over `List.getD` (the `v[i] || 0` default), and the
`try { ... } catch { ... }` wrappers become `Except`-valued bodies whose
catch branch is the `.error` case.
-/

namespace PostMessageMCP

/-- The whitespace characters skipped by JavaScript `parseInt` before the
optional sign (the common ASCII subset, which covers every input the
repository produces). -/
def jsWhitespace (c : Char) : Bool :=
  c == ' ' || c == '\t' || c == '\n' || c == '\r' || c == '\x0b' || c == '\x0c'

/-- Value of a run of decimal digit characters, most significant first. -/
def digitsToNat (l : List Char) : Nat :=
  l.foldl (fun acc c => acc * 10 + (c.toNat - 48)) 0

/-- JavaScript `parseInt(s, 10)`: skip leading whitespace, read an optional
sign, then the longest prefix of decimal digits; `none` models `NaN` (no
digits found). -/
def jsParseInt (s : List Char) : Option Int :=
  let cs := s.dropWhile jsWhitespace
  let signRest : Bool × List Char :=
    match cs with
    | c :: r => if c == '-' then (true, r) else if c == '+' then (false, r) else (false, cs)
    | [] => (false, [])
  let ds := signRest.2.takeWhile Char.isDigit
  if ds.isEmpty then none
  else if signRest.1 then some (-(digitsToNat ds : Int)) else some (digitsToNat ds : Int)

/-- One component of a version string: `parseInt(part, 10) || 0` — the
parsed value, with `NaN` (and `0` itself, harmlessly) collapsed to `0`. -/
def parseComponent (s : List Char) : Int :=
  match jsParseInt s with
  | none => 0
  | some n => n

/-- JavaScript `String.prototype.split(".")` on the character list: always
returns at least one (possibly empty) piece. -/
def splitDot : List Char → List (List Char)
  | [] => [[]]
  | c :: cs =>
    if c = '.' then [] :: splitDot cs
    else
      match splitDot cs with
      | [] => [[c]]
      | p :: rest => (c :: p) :: rest

/-- `parseVersion` from `logic.ts`: `v.split(".").map(part => parseInt(part, 10) || 0)`. -/
def parseVersion (v : String) : List Int :=
  (splitDot v.data).map parseComponent

/-- The body of the `for (let i = 0; i < maxLength; i++)` loop of
`compareVersions`, with `v[i] || 0` rendered as `List.getD i 0` and the
remaining iteration count as fuel. -/
def compareFrom (v1 v2 : List Int) (i : Nat) : Nat → Int
  | 0 => 0
  | fuel + 1 =>
    let part1 := v1.getD i 0
    let part2 := v2.getD i 0
    if part1 < part2 then -1
    else if part1 > part2 then 1
    else compareFrom v1 v2 (i + 1) fuel

/-- `compareVersions` from `logic.ts`: loop up to `Math.max(v1.length, v2.length)`. -/
def compareVersions (v1 v2 : List Int) : Int :=
  compareFrom v1 v2 0 (max v1.length v2.length)

/-- Decimal digit character, as produced by JavaScript number-to-string for
one digit `0 ≤ d ≤ 9`. -/
def digitChar : Nat → Char
  | 0 => '0' | 1 => '1' | 2 => '2' | 3 => '3' | 4 => '4'
  | 5 => '5' | 6 => '6' | 7 => '7' | 8 => '8' | _ => '9'

/-- Decimal digits of `n`, most significant first, with explicit fuel so the
definition is structural (fuel `n + 1` always suffices). -/
def natToCharsFuel : Nat → Nat → List Char
  | 0, _ => []
  | fuel + 1, n =>
    if n < 10 then [digitChar n]
    else natToCharsFuel fuel (n / 10) ++ [digitChar (n % 10)]

/-- Decimal representation of a natural number. -/
def natToChars (n : Nat) : List Char :=
  natToCharsFuel (n + 1) n

/-- Digits with trailing zero digits removed: the shortest significand of
the ECMAScript Number-to-string algorithm, under the exact-integer
idealization used throughout this embedding. -/
def stripTrailingZeros (l : List Char) : List Char :=
  (l.reverse.dropWhile (· == '0')).reverse

/-- ECMAScript `Number::toString` (radix 10) on a non-negative integer value:
plain decimal while the value has at most 21 digits, exponential notation
`d[.ddd]e+k` for 22 digits or more — e.g. 10^21 renders as `"1e+21"`. -/
def natNumberToChars (n : Nat) : List Char :=
  let digits := natToChars n
  if digits.length ≤ 21 then digits
  else
    let s := stripTrailingZeros digits
    let mantissa :=
      match s with
      | [] => ['0']
      | [d] => [d]
      | d :: rest => d :: '.' :: rest
    mantissa ++ 'e' :: '+' :: natToChars (digits.length - 1)

/-- JavaScript number-to-string for the integers stored in a parsed version. -/
def intToStringChars : Int → List Char
  | Int.ofNat n => natNumberToChars n
  | Int.negSucc n => '-' :: natNumberToChars (n + 1)

/-- `parts.join(".")` on the character level. -/
def versionToStringChars : List Int → List Char
  | [] => []
  | [p] => intToStringChars p
  | p :: rest => intToStringChars p ++ '.' :: versionToStringChars rest

/-- `versionToString` from `logic.ts`: `parts.join(".")`. -/
def versionToString (parts : List Int) : String :=
  String.mk (versionToStringChars parts)

/-- Body of the `try` block of `isVersionInRange`; an `.error` result would
be what a thrown exception reaching the `catch` looks like. -/
def isVersionInRangeTry (version minVersion maxVersion : String) : Except String Bool :=
  let versionParts := parseVersion version
  let minVersionParts := parseVersion minVersion
  let maxVersionParts := parseVersion maxVersion
  let isAboveMin := decide (compareVersions versionParts minVersionParts ≥ 0)
  let isBelowMax := decide (compareVersions versionParts maxVersionParts ≤ 0)
  Except.ok (isAboveMin && isBelowMax)

/-- `isVersionInRange` from `logic.ts`: the `try` body, with the `catch`
branch logging and returning `false`. -/
def isVersionInRange (version minVersion maxVersion : String) : Bool :=
  match isVersionInRangeTry version minVersion maxVersion with
  | Except.ok b => b
  | Except.error _ => false

/-- Body of the `try` block of `negotiateVersion`. -/
def negotiateVersionTry (clientMinVersion clientMaxVersion serverMinVersion serverMaxVersion :
    String) : Except String (Option String) :=
  let clientMin := parseVersion clientMinVersion
  let clientMax := parseVersion clientMaxVersion
  let serverMin := parseVersion serverMinVersion
  let serverMax := parseVersion serverMaxVersion
  let overlapMin := if compareVersions clientMin serverMin ≥ 0 then clientMin else serverMin
  let overlapMax := if compareVersions clientMax serverMax ≤ 0 then clientMax else serverMax
  if compareVersions overlapMin overlapMax ≤ 0 then
    Except.ok (some (versionToString overlapMax))
  else
    Except.ok none

/-- `negotiateVersion` from `logic.ts`: the `try` body, with the `catch`
branch logging and returning `null`. -/
def negotiateVersion (clientMinVersion clientMaxVersion serverMinVersion serverMaxVersion :
    String) : Option String :=
  match negotiateVersionTry clientMinVersion clientMaxVersion serverMinVersion serverMaxVersion with
  | Except.ok r => r
  | Except.error _ => none

/-- Reading of the claim's "valid numeral": a nonempty all-digit component. -/
def isValidNumeral (s : List Char) : Bool :=
  !s.isEmpty && s.all Char.isDigit

end PostMessageMCP

namespace PostMessageMCP

/-- Structural twin of the `compareVersions` loop: at each index the loop
compares `v1[i] || 0` with `v2[i] || 0`, which is head-with-default-0
followed by the tails. -/
def compareAux : List Int → List Int → Int
  | [], [] => 0
  | [], b :: bs => if (0 : Int) < b then -1 else if b < 0 then 1 else compareAux [] bs
  | a :: as, [] => if a < 0 then -1 else if 0 < a then 1 else compareAux as []
  | a :: as, b :: bs => if a < b then -1 else if b < a then 1 else compareAux as bs

theorem compareAux_unfold (a b : List Int) :
    compareAux a b =
      if a.headD 0 < b.headD 0 then -1
      else if b.headD 0 < a.headD 0 then 1
      else compareAux a.tail b.tail := by
  cases a <;> cases b <;> simp [compareAux]

theorem compareAux_self (a : List Int) : compareAux a a = 0 := by
  induction a with
  | nil => simp [compareAux]
  | cons x xs ih => simp [compareAux, ih]

theorem compareAux_swap (a : List Int) : ∀ b : List Int, compareAux a b = -compareAux b a := by
  induction a with
  | nil =>
    intro b
    induction b with
    | nil => simp [compareAux]
    | cons y ys ihb =>
      rcases lt_trichotomy (0 : Int) y with h | h | h
      · simp [compareAux, h, not_lt.mpr (le_of_lt h)]
      · simp [compareAux, ← h, ihb]
      · simp [compareAux, h, not_lt.mpr (le_of_lt h)]
  | cons x xs ih =>
    intro b
    cases b with
    | nil =>
      rcases lt_trichotomy x (0 : Int) with h | h | h
      · simp [compareAux, h, not_lt.mpr (le_of_lt h)]
      · simp [compareAux, h, ih]
      · simp [compareAux, h, not_lt.mpr (le_of_lt h)]
    | cons y ys =>
      rcases lt_trichotomy x y with h | h | h
      · simp [compareAux, h, not_lt.mpr (le_of_lt h)]
      · simp [compareAux, h, ih]
      · simp [compareAux, h, not_lt.mpr (le_of_lt h)]

theorem compareAux_pad_right (a : List Int) :
    ∀ n : Nat, compareAux a (a ++ List.replicate n 0) = 0 := by
  induction a with
  | nil =>
    intro n
    induction n with
    | zero => simp [compareAux]
    | succ m ihn => simpa [compareAux, List.replicate_succ] using ihn
  | cons x xs ih =>
    intro n
    simp [compareAux, ih n]

theorem compareFrom_shift (v1 v2 : List Int) :
    ∀ (fuel i : Nat), compareFrom v1 v2 (i + 1) fuel = compareFrom v1.tail v2.tail i fuel := by
  intro fuel
  induction fuel with
  | zero => intro i; rfl
  | succ m ih =>
    intro i
    have h1 : v1.getD (i + 1) 0 = v1.tail.getD i 0 := by cases v1 <;> simp
    have h2 : v2.getD (i + 1) 0 = v2.tail.getD i 0 := by cases v2 <;> simp
    simp only [compareFrom, h1, h2, ih (i + 1)]

theorem compareFrom_eq_compareAux :
    ∀ (fuel : Nat) (v1 v2 : List Int), fuel = max v1.length v2.length →
      compareFrom v1 v2 0 fuel = compareAux v1 v2 := by
  intro fuel
  induction fuel with
  | zero =>
    intro v1 v2 h
    have h1 : v1 = [] := List.eq_nil_of_length_eq_zero (by omega)
    have h2 : v2 = [] := List.eq_nil_of_length_eq_zero (by omega)
    subst h1; subst h2
    simp [compareFrom, compareAux]
  | succ m ih =>
    intro v1 v2 h
    have h1 : v1.getD 0 0 = v1.headD 0 := by cases v1 <;> simp
    have h2 : v2.getD 0 0 = v2.headD 0 := by cases v2 <;> simp
    rw [compareAux_unfold]
    have htail : m = max v1.tail.length v2.tail.length := by
      have e1 : v1.tail.length = v1.length - 1 := by cases v1 <;> simp
      have e2 : v2.tail.length = v2.length - 1 := by cases v2 <;> simp
      omega
    simp only [compareFrom, h1, h2, compareFrom_shift, ih v1.tail v2.tail htail]

theorem compareVersions_eq_compareAux (v1 v2 : List Int) :
    compareVersions v1 v2 = compareAux v1 v2 :=
  compareFrom_eq_compareAux _ v1 v2 rfl

theorem compareVersions_self (a : List Int) : compareVersions a a = 0 := by
  rw [compareVersions_eq_compareAux]; exact compareAux_self a

theorem compareVersions_swap (a b : List Int) : compareVersions a b = -compareVersions b a := by
  rw [compareVersions_eq_compareAux, compareVersions_eq_compareAux]
  exact compareAux_swap a b

/-- Observable UI effect in `initializeCopilot`'s fallback-timeout-versus-load
race (`patient-dashboard.ts`): both the 5-second fallback timer callback and
the iframe `load` listener call `ui.showConnected()`; each call is tagged
with the handler that made it. -/
inductive RaceEffect
  | timeoutShowConnected
  | loadShowConnected
deriving DecidableEq, BEq

/-- Events the browser event loop can deliver for this race: the fallback
timer expiring, and the iframe `load` event. -/
inductive RaceEvent
  | timerFire
  | iframeLoad
deriving DecidableEq

/-- Outer-page state for the race: whether the fallback timer is still
armed, and the ordered log of `showConnected` calls. -/
structure RaceState where
  timerActive : Bool
  effects : List RaceEffect
deriving DecidableEq

/-- State right after `initializeCopilot` arms the fallback timer. -/
def raceInit : RaceState :=
  { timerActive := true, effects := [] }

/-- One delivered event: a timer whose handle was passed to `clearTimeout`
(or that already fired) runs no callback; the `load` listener first calls
`clearTimeout(fallbackTimeout)` and then `ui.showConnected()`. -/
def raceStep (s : RaceState) : RaceEvent → RaceState
  | RaceEvent.timerFire =>
    if s.timerActive then
      { timerActive := false, effects := s.effects ++ [RaceEffect.timeoutShowConnected] }
    else s
  | RaceEvent.iframeLoad =>
    { timerActive := false, effects := s.effects ++ [RaceEffect.loadShowConnected] }

/-- Run a whole event trace from the armed-timer state. -/
def raceRun (evs : List RaceEvent) : RaceState :=
  evs.foldl raceStep raceInit

/-- Effects emitted strictly after the prefix `pre` of the trace `pre ++ post`. -/
def raceEffectsAfter (pre post : List RaceEvent) : List RaceEffect :=
  (raceRun (pre ++ post)).effects.drop (raceRun pre).effects.length

/-- Actions of the AI-copilot page's `DOMContentLoaded` handler, in program
order: startup logging, registering the test-message listener, the
conditional `copilot-ready` post to the parent, then constructing and
starting `CopilotApp` (which owns the transport handshake), with the error
UI shown when that startup throws. -/
inductive BootAction
  | logStartup
  | addTestListener
  | postToParent (msgType : String)
  | runApp
  | showStartupErrorUI
deriving DecidableEq, BEq

/-- The AI-copilot page's `DOMContentLoaded` handler: `embedded` is
`window.parent !== window`, `appFails` tells whether `new CopilotApp()` /
`copilotApp.initialize()` throws. -/
def copilotOnLoad (embedded appFails : Bool) : List BootAction :=
  [BootAction.logStartup, BootAction.addTestListener] ++
    (if embedded then [BootAction.postToParent "copilot-ready"] else []) ++
    [BootAction.runApp] ++
    (if appFails then [BootAction.showStartupErrorUI] else [])

/-- `bloodPressure` record of the patient data store. -/
structure BloodPressure where
  systolic : Int
  diastolic : Int
deriving DecidableEq

/-- An allergy entry of the patient data store. -/
structure Allergy where
  name : String
  severity : String
deriving DecidableEq

/-- A medication entry of the patient data store. -/
structure Medication where
  name : String
  dosage : String
  frequency : String
  prescribedDate : String
deriving DecidableEq

/-- The `patientData` store of `patient-dashboard.ts`. -/
structure PatientData where
  name : String
  patientId : String
  dob : String
  age : Int
  bloodPressure : BloodPressure
  bloodSugar : Int
  lastVisit : String
  totalVisits : Int
  nextAppointment : String
  allergies : List Allergy
  medications : List Medication
deriving DecidableEq

/-- One rendered medical-history entry. -/
structure HistoryEntry where
  icon : String
  title : String
  time : String
deriving DecidableEq

/-- The DOM elements the vitals updates touch: `getElementById` yields `none`
when an element is absent; `lastBp`/`lastSugar` hold the text content, the
history element holds its entries newest-first. -/
structure DashboardDom where
  lastBp : Option String
  lastSugar : Option String
  medicalHistory : Option (List HistoryEntry)
deriving DecidableEq

/-- Whole dashboard page state: the patient data store plus the DOM. -/
structure DashboardState where
  patientData : PatientData
  dom : DashboardDom
deriving DecidableEq

/-- `addMedicalHistoryEntry` from `patient-dashboard.ts`: prepends an entry
when the `medical-history` element exists, otherwise does nothing. -/
def addMedicalHistoryEntry (st : DashboardState) (icon title time : String) : DashboardState :=
  match st.dom.medicalHistory with
  | some entries =>
    { st with dom := { st.dom with medicalHistory := some (⟨icon, title, time⟩ :: entries) } }
  | none => st

/-- `updateBloodPressure(systolic, diastolic)` from `patient-dashboard.ts`. -/
def updateBloodPressure (st : DashboardState) (systolic diastolic : Int) : DashboardState :=
  match st.dom.lastBp with
  | some _ =>
    let st1 : DashboardState :=
      { st with dom :=
          { st.dom with lastBp := some (toString systolic ++ "/" ++ toString diastolic) } }
    let st2 : DashboardState :=
      { st1 with patientData :=
          { st1.patientData with bloodPressure := ⟨systolic, diastolic⟩ } }
    addMedicalHistoryEntry st2 "🩺" "Blood Pressure Check" "Today"
  | none => st

/-- `updateBloodSugar(value)` from `patient-dashboard.ts`. -/
def updateBloodSugar (st : DashboardState) (value : Int) : DashboardState :=
  match st.dom.lastSugar with
  | some _ =>
    let st1 : DashboardState :=
      { st with dom := { st.dom with lastSugar := some (toString value) } }
    let st2 : DashboardState :=
      { st1 with patientData := { st1.patientData with bloodSugar := value } }
    addMedicalHistoryEntry st2 "🩸" "Blood Sugar Test" "Today"
  | none => st

theorem raceStep_inactive_preserved (s : RaceState) (h : s.timerActive = false) :
    ∀ ev : RaceEvent, (raceStep s ev).timerActive = false := by
  intro ev
  cases ev <;> simp [raceStep, h]

theorem raceFold_inactive_no_timeout :
    ∀ (evs : List RaceEvent) (s : RaceState), s.timerActive = false →
      ∃ extra : List RaceEffect,
        (evs.foldl raceStep s).effects = s.effects ++ extra ∧
        extra.count RaceEffect.timeoutShowConnected = 0 := by
  intro evs
  induction evs with
  | nil => intro s _; exact ⟨[], by simp, rfl⟩
  | cons ev rest ih =>
    intro s hs
    cases ev with
    | timerFire =>
      have : raceStep s RaceEvent.timerFire = s := by simp [raceStep, hs]
      simpa [this] using ih s hs
    | iframeLoad =>
      obtain ⟨extra, heff, hcount⟩ :=
        ih { timerActive := false, effects := s.effects ++ [RaceEffect.loadShowConnected] } rfl
      refine ⟨RaceEffect.loadShowConnected :: extra, ?_, ?_⟩
      · simpa [raceStep] using heff
      · simpa using hcount

theorem raceRun_after_load_inactive (pre : List RaceEvent) :
    (raceRun (pre ++ [RaceEvent.iframeLoad])).timerActive = false := by
  simp [raceRun, List.foldl_append, raceStep]

theorem negotiateVersion_eq (cmin cmax smin smax : String) :
    negotiateVersion cmin cmax smin smax =
      (if compareVersions
            (if compareVersions (parseVersion cmin) (parseVersion smin) ≥ 0 then
              parseVersion cmin else parseVersion smin)
            (if compareVersions (parseVersion cmax) (parseVersion smax) ≤ 0 then
              parseVersion cmax else parseVersion smax) ≤ 0 then
        some (versionToString
          (if compareVersions (parseVersion cmax) (parseVersion smax) ≤ 0 then
            parseVersion cmax else parseVersion smax))
      else none) := by
  by_cases h : compareVersions
      (if compareVersions (parseVersion cmin) (parseVersion smin) ≥ 0 then
        parseVersion cmin else parseVersion smin)
      (if compareVersions (parseVersion cmax) (parseVersion smax) ≤ 0 then
        parseVersion cmax else parseVersion smax) ≤ 0 <;>
    simp [negotiateVersion, negotiateVersionTry, h]

theorem negotiateVersionTry_eq_ok (cmin cmax smin smax : String) :
    negotiateVersionTry cmin cmax smin smax =
      Except.ok (negotiateVersion cmin cmax smin smax) := by
  rw [negotiateVersion_eq]
  by_cases h : compareVersions
      (if compareVersions (parseVersion cmin) (parseVersion smin) ≥ 0 then
        parseVersion cmin else parseVersion smin)
      (if compareVersions (parseVersion cmax) (parseVersion smax) ≤ 0 then
        parseVersion cmax else parseVersion smax) ≤ 0 <;>
    simp [negotiateVersionTry, h]

theorem overlapMin_ge (a b : List Int) :
    compareVersions (if compareVersions a b ≥ 0 then a else b) a ≥ 0 ∧
    compareVersions (if compareVersions a b ≥ 0 then a else b) b ≥ 0 := by
  by_cases h : compareVersions a b ≥ 0
  · rw [if_pos h]
    exact ⟨by simp [compareVersions_self], h⟩
  · rw [if_neg h]
    refine ⟨?_, by simp [compareVersions_self]⟩
    have hs := compareVersions_swap b a
    omega

theorem overlapMax_le (c d : List Int) :
    compareVersions (if compareVersions c d ≤ 0 then c else d) c ≤ 0 ∧
    compareVersions (if compareVersions c d ≤ 0 then c else d) d ≤ 0 := by
  by_cases h : compareVersions c d ≤ 0
  · rw [if_pos h]
    exact ⟨by simp [compareVersions_self], h⟩
  · rw [if_neg h]
    refine ⟨?_, by simp [compareVersions_self]⟩
    have hs := compareVersions_swap d c
    omega

theorem parseComponent_eq_getD (s : List Char) :
    parseComponent s = (jsParseInt s).getD 0 := by
  cases h : jsParseInt s <;> simp [parseComponent, h]

/-- Claim C1: `negotiateVersion` computes `overlapMin` as the comparator-maximum
of the two min versions and `overlapMax` as the comparator-minimum of the two
max versions, and whenever `overlapMin <= overlapMax` it returns `overlapMax`
(the newest mutually acceptable version); in particular
`negotiateVersion "1.0" "1.0" "1.0" "1.0" = "1.0"` and
`negotiateVersion "1.0" "2.0" "1.5" "3.0" = "2.0"`. -/
theorem negotiateVersion_picks_overlap_max :
    (∀ cmin cmax smin smax : String,
      ∃ overlapMin overlapMax : List Int,
        (overlapMin = parseVersion cmin ∨ overlapMin = parseVersion smin) ∧
        compareVersions overlapMin (parseVersion cmin) ≥ 0 ∧
        compareVersions overlapMin (parseVersion smin) ≥ 0 ∧
        (overlapMax = parseVersion cmax ∨ overlapMax = parseVersion smax) ∧
        compareVersions overlapMax (parseVersion cmax) ≤ 0 ∧
        compareVersions overlapMax (parseVersion smax) ≤ 0 ∧
        negotiateVersion cmin cmax smin smax =
          (if compareVersions overlapMin overlapMax ≤ 0 then
            some (versionToString overlapMax) else none)) ∧
    negotiateVersion "1.0" "1.0" "1.0" "1.0" = some "1.0" ∧
    negotiateVersion "1.0" "2.0" "1.5" "3.0" = some "2.0" := by
  refine ⟨?_, by decide, by decide⟩
  intro cmin cmax smin smax
  refine ⟨(if compareVersions (parseVersion cmin) (parseVersion smin) ≥ 0 then
      parseVersion cmin else parseVersion smin),
    (if compareVersions (parseVersion cmax) (parseVersion smax) ≤ 0 then
      parseVersion cmax else parseVersion smax), ?_,
    (overlapMin_ge _ _).1, (overlapMin_ge _ _).2, ?_,
    (overlapMax_le _ _).1, (overlapMax_le _ _).2,
    negotiateVersion_eq cmin cmax smin smax⟩
  · by_cases h : compareVersions (parseVersion cmin) (parseVersion smin) ≥ 0 <;> simp [h]
  · by_cases h : compareVersions (parseVersion cmax) (parseVersion smax) ≤ 0 <;> simp [h]

/-- Claim C2: `negotiateVersion` never throws to its caller — its `try` body
always produces a value, disjoint ranges yield the explicit incompatibility
signal `none`, and any internal parsing error would be caught and reported as
`none`; in particular `negotiateVersion "1.0" "1.1" "2.0" "2.1" = none`. -/
theorem negotiateVersion_incompatible_null :
    (∀ cmin cmax smin smax : String,
      negotiateVersionTry cmin cmax smin smax =
        Except.ok (negotiateVersion cmin cmax smin smax)) ∧
    (∀ cmin cmax smin smax : String,
      ∃ overlapMin overlapMax : List Int,
        (overlapMin = parseVersion cmin ∨ overlapMin = parseVersion smin) ∧
        (overlapMax = parseVersion cmax ∨ overlapMax = parseVersion smax) ∧
        (negotiateVersion cmin cmax smin smax = none ↔
          compareVersions overlapMin overlapMax > 0)) ∧
    negotiateVersion "1.0" "1.1" "2.0" "2.1" = none := by
  refine ⟨negotiateVersionTry_eq_ok, ?_, by decide⟩
  intro cmin cmax smin smax
  refine ⟨(if compareVersions (parseVersion cmin) (parseVersion smin) ≥ 0 then
      parseVersion cmin else parseVersion smin),
    (if compareVersions (parseVersion cmax) (parseVersion smax) ≤ 0 then
      parseVersion cmax else parseVersion smax), ?_, ?_, ?_⟩
  · by_cases h : compareVersions (parseVersion cmin) (parseVersion smin) ≥ 0 <;> simp [h]
  · by_cases h : compareVersions (parseVersion cmax) (parseVersion smax) ≤ 0 <;> simp [h]
  · rw [negotiateVersion_eq]
    by_cases h : compareVersions
        (if compareVersions (parseVersion cmin) (parseVersion smin) ≥ 0 then
          parseVersion cmin else parseVersion smin)
        (if compareVersions (parseVersion cmax) (parseVersion smax) ≤ 0 then
          parseVersion cmax else parseVersion smax) ≤ 0
    · rw [if_pos h]
      simp only [reduceCtorEq, false_iff]
      omega
    · rw [if_neg h]
      simp only [true_iff]
      omega

/-- Claim C3: `isVersionInRange version min max` is `true` exactly when
`version` is at least `min` and at most `max` under the component-wise
comparator, with both bounds inclusive; in particular
`isVersionInRange "1.2" "1.0" "2.0" = true`,
`isVersionInRange "0.9" "1.0" "2.0" = false`, and
`isVersionInRange "2.0" "1.0" "2.0" = true`. -/
theorem isVersionInRange_iff_bounds :
    (∀ version minVersion maxVersion : String,
      isVersionInRange version minVersion maxVersion = true ↔
        (compareVersions (parseVersion version) (parseVersion minVersion) ≥ 0 ∧
         compareVersions (parseVersion version) (parseVersion maxVersion) ≤ 0)) ∧
    isVersionInRange "1.2" "1.0" "2.0" = true ∧
    isVersionInRange "0.9" "1.0" "2.0" = false ∧
    isVersionInRange "2.0" "1.0" "2.0" = true := by
  refine ⟨?_, by decide, by decide, by decide⟩
  intro version minVersion maxVersion
  simp [isVersionInRange, isVersionInRangeTry, Bool.and_eq_true, decide_eq_true_eq]

/-- Claim C4: the version comparator is strictly lexicographic over numeric
components with 0-padding of the shorter side, so `"1"` compares equal to
`"1.0"`; it satisfies `compare v1 v2 = -compare v2 v1` and `compare v v = 0`. -/
theorem compareVersions_lex_padded :
    compareVersions (parseVersion "1") (parseVersion "1.0") = 0 ∧
    (∀ v1 v2 : List Int, compareVersions v1 v2 = -compareVersions v2 v1) ∧
    (∀ v : List Int, compareVersions v v = 0) ∧
    (∀ (v : List Int) (n : Nat), compareVersions v (v ++ List.replicate n 0) = 0) := by
  refine ⟨by decide, compareVersions_swap, compareVersions_self, ?_⟩
  intro v n
  rw [compareVersions_eq_compareAux]
  exact compareAux_pad_right v n

/-- Claim C5 as stated is false: a component that is not a valid numeral does
not always contribute 0 — `parseInt` keeps a numeric prefix, so the component
`"2x"` of `"2x"` contributes 2, not 0. -/
theorem parseVersion_invalid_component_cex :
    ¬ (∀ (v : String) (i : Nat),
        isValidNumeral ((splitDot v.data).getD i []) = false →
        (parseVersion v).getD i 0 = 0) := by
  intro h
  exact absurd (h "2x" 0 (by decide)) (by decide)

/-- Claim C5 amended: version parsing is total — every input yields one
numeric component per dot-separated piece without failing, each component
contributing `parseInt(part, 10)` with `NaN` collapsed to 0; a component with
no parseable numeric prefix contributes 0 (so `"1.x"` parses like `"1.0"`),
while a partially numeric component keeps its prefix (`"2x"` parses as `[2]`). -/
theorem parseVersion_total_amended :
    (∀ v : String, (parseVersion v).length = (splitDot v.data).length) ∧
    (∀ (v : String) (i : Nat),
      (parseVersion v).getD i 0 = (jsParseInt ((splitDot v.data).getD i [])).getD 0) ∧
    parseVersion "1.x" = parseVersion "1.0" ∧
    parseVersion "2x" = [2] := by
  refine ⟨?_, ?_, by decide, by decide⟩
  · intro v
    simp [parseVersion]
  · intro v i
    have h1 : (parseVersion v).getD i 0 = ((splitDot v.data)[i]?.map parseComponent).getD 0 := by
      simp [parseVersion, List.getD_eq_getElem?_getD]
    rw [h1]
    cases h : (splitDot v.data)[i]? with
    | none => simp [List.getD_eq_getElem?_getD, h, jsParseInt]
    | some s => simp [List.getD_eq_getElem?_getD, h, parseComponent_eq_getD]

/-- Claim C7 as stated is false: the race is not resolved symmetrically. The
load listener does clear the fallback timer, but the fallback timer firing
first does not cancel the load listener — a later iframe load still runs its
handler and calls `showConnected` again, as the trace
`[timerFire, iframeLoad]` shows. -/
theorem race_symmetric_cancel_cex :
    ¬ ((∀ pre post : List RaceEvent,
          (raceEffectsAfter (pre ++ [RaceEvent.iframeLoad]) post).count
            RaceEffect.timeoutShowConnected = 0) ∧
       (∀ pre post : List RaceEvent, (raceRun pre).timerActive = true →
          (raceEffectsAfter (pre ++ [RaceEvent.timerFire]) post).count
            RaceEffect.loadShowConnected = 0)) := by
  intro hclaim
  have h := hclaim.2 [] [RaceEvent.iframeLoad] (by decide)
  revert h
  decide

/-- Claim C7 amended: once the iframe load event fires, the fallback timer is
cleared and its callback never runs afterwards; the converse does not hold —
after the fallback timeout fires first, a later iframe load event still runs
its handler and calls `showConnected` again. -/
theorem race_load_cancels_timeout :
    (∀ pre post : List RaceEvent,
      (raceEffectsAfter (pre ++ [RaceEvent.iframeLoad]) post).count
        RaceEffect.timeoutShowConnected = 0) ∧
    (raceRun [RaceEvent.timerFire, RaceEvent.iframeLoad]).effects =
      [RaceEffect.timeoutShowConnected, RaceEffect.loadShowConnected] := by
  refine ⟨?_, by decide⟩
  intro pre post
  obtain ⟨extra, heff, hcount⟩ :=
    raceFold_inactive_no_timeout post (raceRun (pre ++ [RaceEvent.iframeLoad]))
      (raceRun_after_load_inactive pre)
  have hrun : raceRun ((pre ++ [RaceEvent.iframeLoad]) ++ post) =
      post.foldl raceStep (raceRun (pre ++ [RaceEvent.iframeLoad])) := by
    simp [raceRun, List.foldl_append]
  rw [raceEffectsAfter, hrun, heff, List.drop_left]
  exact hcount

/-- Claim C8: whenever the inner page is embedded (its parent window differs
from itself), its `DOMContentLoaded` handler posts exactly one
`copilot-ready` message to the parent, and that post happens before the
application (and hence the transport handshake) is started, regardless of
whether that startup later fails. -/
theorem copilot_ready_posted_on_load :
    ∀ appFails : Bool,
      (copilotOnLoad true appFails).count (BootAction.postToParent "copilot-ready") = 1 ∧
      (copilotOnLoad false appFails).count (BootAction.postToParent "copilot-ready") = 0 ∧
      (copilotOnLoad true appFails).indexOf (BootAction.postToParent "copilot-ready") <
        (copilotOnLoad true appFails).indexOf BootAction.runApp := by
  intro appFails
  cases appFails <;> decide

/-- Claim C9: the `try` bodies of `isVersionInRange` and `negotiateVersion`
never throw — each is a total deterministic function of its string inputs, so
the `catch` branches returning `false` and `null` (and their error logging)
are unreachable. -/
theorem try_blocks_total :
    (∀ version minVersion maxVersion : String,
      isVersionInRangeTry version minVersion maxVersion =
        Except.ok (isVersionInRange version minVersion maxVersion)) ∧
    (∀ cmin cmax smin smax : String,
      negotiateVersionTry cmin cmax smin smax =
        Except.ok (negotiateVersion cmin cmax smin smax)) :=
  ⟨fun _ _ _ => rfl, negotiateVersionTry_eq_ok⟩

/-- Claim C10: `updateBloodPressure` and `updateBloodSugar` are atomic with
respect to the patient data store — when the corresponding DOM element is
absent the whole call is a no-op (no patient-data field changes, no history
entry is appended), and when it is present exactly the `bloodPressure`
(respectively `bloodSugar`) field of the store is updated. -/
theorem updateVitals_atomic (st : DashboardState) (systolic diastolic value : Int) :
    ((updateBloodPressure st systolic diastolic).patientData =
      (match st.dom.lastBp with
       | none => st.patientData
       | some _ => { st.patientData with bloodPressure := ⟨systolic, diastolic⟩ })) ∧
    (match st.dom.lastBp with
     | none => updateBloodPressure st systolic diastolic = st
     | some _ => True) ∧
    ((updateBloodSugar st value).patientData =
      (match st.dom.lastSugar with
       | none => st.patientData
       | some _ => { st.patientData with bloodSugar := value })) ∧
    (match st.dom.lastSugar with
     | none => updateBloodSugar st value = st
     | some _ => True) := by
  refine ⟨?_, ?_, ?_, ?_⟩ <;>
    cases hbp : st.dom.lastBp <;> cases hsu : st.dom.lastSugar <;>
      cases hmh : st.dom.medicalHistory <;>
      simp [updateBloodPressure, updateBloodSugar, addMedicalHistoryEntry, hbp, hsu, hmh]

end PostMessageMCP
